import Mathlib

/-
Verification of the Squama code editor's text engine.

The engine (src/text_engine.py, class `TextEngine`) is a gap buffer: a
Python list `buffer` whose slots hold either a character or `None`, with the
empty gap occupying the half-open index range `[gap_start, gap_end)`.

Shallow embedding conventions:
  * the Python list of characters/None becomes `List (Option Char)`;
  * Python integer indices become `Nat` (they are never negative along the
    guarded paths of this class) and the argument of `set_cursor`, which the
    caller may pass negative, becomes `Int`;
  * a Python indexing operation `buffer[i]` / `buffer[i] = v` that would
    raise `IndexError` at `i ≥ len(buffer)` is embedded through
    `listGetE` / `listSetE`, returning `Except String`; hence every engine
    operation that indexes the buffer returns `Except String TextEngine`;
  * `print` diagnostics (the "Buffer Full!" message of `insert_char`) have
    no state effect and are not modelled.

The undo/redo history stacks and `delete_from_cursor` are called by
src/main.py but have no implementation under src/; they are modelled from
the specification in the second half of this file (definitions whose doc
comments start `Modelled from the spec:`).
-/

/-- Embedding of a Python list read `l[i]` for `0 ≤ i`: returns the element,
or the `IndexError` that Python raises when `i` is not below the length. -/
def listGetE {α : Type} (l : List α) (i : Nat) : Except String α :=
  if h : i < l.length then .ok (l.get ⟨i, h⟩) else .error "IndexError"

/-- Embedding of a Python list write `l[i] = a` for `0 ≤ i`: returns the
updated list, or the `IndexError` that Python raises out of range. -/
def listSetE {α : Type} (l : List α) (i : Nat) (a : α) : Except String (List α) :=
  if i < l.length then .ok (l.set i a) else .error "IndexError"

/-- The gap-buffer state of src/text_engine.py: the storage list and the
half-open gap range `[gap_start, gap_end)`.  `gap_start` is the cursor. -/
structure TextEngine where
  buffer : List (Option Char)
  gap_start : Nat
  gap_end : Nat
deriving DecidableEq, Repr

namespace TextEngine

/-- `__init__(initial_capacity)`: a buffer of `None`s, the gap spanning all
of it, cursor at 0.  (Python's default argument is 100.) -/
def init (initial_capacity : Nat) : TextEngine :=
  { buffer := List.replicate initial_capacity none
    gap_start := 0
    gap_end := initial_capacity }

/-- `insert_char(char)`: if the gap is exhausted (`gap_start == gap_end`)
the Python code prints "Buffer Full! (Resize not implemented yet)" and
returns without touching the state; otherwise it writes the character at
`gap_start` and increments `gap_start`. -/
def insert_char (char : Char) (e : TextEngine) : Except String TextEngine :=
  if e.gap_start = e.gap_end then
    .ok e
  else do
    let b ← listSetE e.buffer e.gap_start (some char)
    .ok { buffer := b, gap_start := e.gap_start + 1, gap_end := e.gap_end }

/-- One iteration count of the first `while` loop of `set_cursor`
(`while self.gap_start > new_pos`), run `steps` times.  Each Python
iteration does `gap_start -= 1; gap_end -= 1;
buffer[gap_end] = buffer[gap_start]; buffer[gap_start] = None`.  The loop
condition decreases by exactly one per iteration, so running the loop to
exhaustion equals running `gap_start - new_pos` unconditional steps. -/
def moveGapLeft : Nat → TextEngine → Except String TextEngine
  | 0, e => .ok e
  | steps + 1, e => do
    let c ← listGetE e.buffer (e.gap_start - 1)
    let b1 ← listSetE e.buffer (e.gap_end - 1) c
    let b2 ← listSetE b1 (e.gap_start - 1) none
    moveGapLeft steps { buffer := b2, gap_start := e.gap_start - 1, gap_end := e.gap_end - 1 }

/-- One iteration count of the second `while` loop of `set_cursor`
(`while self.gap_start < new_pos`), run `steps` times.  Each Python
iteration does `buffer[gap_start] = buffer[gap_end];
buffer[gap_end] = None; gap_start += 1; gap_end += 1`. -/
def moveGapRight : Nat → TextEngine → Except String TextEngine
  | 0, e => .ok e
  | steps + 1, e => do
    let c ← listGetE e.buffer e.gap_end
    let b1 ← listSetE e.buffer e.gap_start c
    let b2 ← listSetE b1 e.gap_end none
    moveGapRight steps { buffer := b2, gap_start := e.gap_start + 1, gap_end := e.gap_end + 1 }

/-- `current_text_length` as computed by `set_cursor`:
`len(self.buffer) - (self.gap_end - self.gap_start)` over Python integers. -/
def current_text_length (e : TextEngine) : Int :=
  (e.buffer.length : Int) - ((e.gap_end : Int) - (e.gap_start : Int))

/-- The clamping line of `set_cursor`:
`new_pos = max(0, min(new_pos, current_text_length))`.  The result is
nonnegative, so it is returned as a `Nat`. -/
def clampPos (new_pos : Int) (e : TextEngine) : Nat :=
  (max 0 (min new_pos (current_text_length e))).toNat

/-- `set_cursor(new_pos)`: clamp, then slide the gap left or right until
`gap_start` reaches the clamped position.  The two Python `while` loops are
mutually exclusive and each runs exactly the distance many iterations. -/
def set_cursor (new_pos : Int) (e : TextEngine) : Except String TextEngine :=
  let p := clampPos new_pos e
  if p < e.gap_start then moveGapLeft (e.gap_start - p) e
  else moveGapRight (p - e.gap_start) e

/-- `get_text()`: the `None`-filtered slots before the gap, a literal `"|"`
element, and the `None`-filtered slots from `gap_end` on, joined into one
string — `"".join(clean_prefix + ["|"] + clean_suffix)` in the source. -/
def get_text (e : TextEngine) : String :=
  let beforeGap := (e.buffer.take e.gap_start).filterMap id
  let afterGap := (e.buffer.drop e.gap_end).filterMap id
  String.mk (beforeGap ++ ['|'] ++ afterGap)

/-- `delete_char()`: no-op at `gap_start == 0`; otherwise decrement
`gap_start` and clear the vacated slot. -/
def delete_char (e : TextEngine) : Except String TextEngine :=
  if e.gap_start = 0 then
    .ok e
  else do
    let b ← listSetE e.buffer (e.gap_start - 1) none
    .ok { buffer := b, gap_start := e.gap_start - 1, gap_end := e.gap_end }

/-- The `cursor_pos` property: `gap_start`. -/
def cursor_pos (e : TextEngine) : Nat := e.gap_start

/-- `load_text(text)`: fresh buffer of capacity `max(len(text) * 2, 100)`,
the characters written in order from slot 0, `gap_start = len(text)`,
`gap_end = capacity`.  Writing `text[i]` into slot `i` of an all-`None`
buffer of capacity ≥ `len(text)` yields the list below. -/
def load_text (text : String) : TextEngine :=
  let capacity := max (text.length * 2) 100
  { buffer := text.data.map some ++ List.replicate (capacity - text.length) none
    gap_start := text.length
    gap_end := capacity }

/-- The logical character sequence of a state: the slots strictly before
the gap concatenated with the slots from `gap_end` on (gap excluded). -/
def logicalText (e : TextEngine) : List (Option Char) :=
  e.buffer.take e.gap_start ++ e.buffer.drop e.gap_end

/-- The index invariant of the spec: `0 ≤ gap_start ≤ gap_end ≤ capacity`
(the lower bound is automatic over `Nat`). -/
def Invariant (e : TextEngine) : Prop :=
  e.gap_start ≤ e.gap_end ∧ e.gap_end ≤ e.buffer.length

instance (e : TextEngine) : Decidable (Invariant e) := by
  unfold Invariant; infer_instance

/-- The index invariant together with occupancy: every slot outside the gap
holds a live character (is not `None`). -/
def StateOK (e : TextEngine) : Prop :=
  Invariant e ∧ ∀ x ∈ logicalText e, x ≠ none

instance (e : TextEngine) : Decidable (StateOK e) := by
  unfold StateOK; infer_instance

/-- Extract the state from a non-raising operation result (dummy fallback
for the raising case, which the theorems rule out separately). -/
def stateOf : Except String TextEngine → TextEngine
  | .ok e => e
  | .error _ => { buffer := [], gap_start := 0, gap_end := 0 }

/-- States reachable through the public operations of the class, starting
from a fresh `__init__` or a `load_text` (which discards the prior state). -/
inductive Reachable : TextEngine → Prop
  | init (n : Nat) : Reachable (init n)
  | load (s : String) : Reachable (load_text s)
  | insert {e e' : TextEngine} (c : Char) :
      Reachable e → insert_char c e = .ok e' → Reachable e'
  | delete {e e' : TextEngine} :
      Reachable e → delete_char e = .ok e' → Reachable e'
  | cursor {e e' : TextEngine} (n : Int) :
      Reachable e → set_cursor n e = .ok e' → Reachable e'

end TextEngine

open TextEngine

/-- Modelled from the spec: `delete_from_cursor(count)` has no
implementation under src/ (src/main.py calls `engine.delete_from_cursor`).
Per spec §4.1: `count ≤ 0` is a no-op; otherwise `count` is clamped to the
slots available after the gap (`capacity − gap_end`), the consumed slots
are cleared and `gap_end` advances by the clamped count.  `clearSlots l i k`
clears the `k` slots starting at index `i`. -/
def clearSlots : List (Option Char) → Nat → Nat → List (Option Char)
  | l, _, 0 => l
  | l, i, k + 1 => clearSlots (l.set i none) (i + 1) k

/-- Modelled from the spec: the effect of `delete_from_cursor(count)` on the
gap-buffer state (the history snapshot is taken by the editor layer below). -/
def delete_from_cursor (count : Int) (e : TextEngine) : TextEngine :=
  if count ≤ 0 then e
  else
    let avail : Nat := e.buffer.length - e.gap_end
    let k : Nat := min count.toNat avail
    { buffer := clearSlots e.buffer e.gap_end k
      gap_start := e.gap_start
      gap_end := e.gap_end + k }

/-- Modelled from the spec: the engine together with its two history stacks
of full-state snapshots (spec §3: a history entry is a snapshot of
`(buffer contents, gap_start, gap_end)`, which is exactly a `TextEngine`
value). -/
structure EditorState where
  engine : TextEngine
  undo_stack : List TextEngine
  redo_stack : List TextEngine
deriving DecidableEq

/-- Modelled from the spec: pushing onto the undo stack, capped at 50
entries with the oldest evicted first (spec §3). -/
def pushUndo (s : TextEngine) (stack : List TextEngine) : List TextEngine :=
  List.take 50 (s :: stack)

/-- Modelled from the spec: `undo()` — no-op if the undo stack is empty;
otherwise push the current state onto the redo stack, pop the most recent
undo entry and restore it as the live state (spec §4.1). -/
def undo (st : EditorState) : EditorState :=
  match st.undo_stack with
  | [] => st
  | s :: rest =>
    { engine := s, undo_stack := rest, redo_stack := st.engine :: st.redo_stack }

/-- Modelled from the spec: `redo()` — symmetric to `undo()`; no-op if the
redo stack is empty (spec §4.1). -/
def redo (st : EditorState) : EditorState :=
  match st.redo_stack with
  | [] => st
  | s :: rest =>
    { engine := s, undo_stack := pushUndo st.engine st.undo_stack, redo_stack := rest }

/-- The mutating operations of the engine, as invoked by the editor layer. -/
inductive EditOp where
  | insertChar (c : Char)
  | deleteChar
  | deleteFrom (count : Int)
  | setCursor (new_pos : Int)

/-- Modelled from the spec: whether an operation takes an undo snapshot in
the given state.  `insert_char` snapshots only on whitespace/newline or
when the undo history is empty (the coalescing policy of spec §4.1);
`delete_char` snapshots unless it is the `gap_start == 0` no-op;
`delete_from_cursor` snapshots unless `count ≤ 0`; cursor motion never
snapshots. -/
def takesSnapshot : EditOp → EditorState → Bool
  | .insertChar c, st => c.isWhitespace || st.undo_stack.isEmpty
  | .deleteChar, st => decide (st.engine.gap_start ≠ 0)
  | .deleteFrom count, _ => decide (0 < count)
  | .setCursor _, _ => false

/-- Modelled from the spec: one mutating operation applied to the editor
state — snapshot per the policy above, then the engine-level effect; every
snapshotting mutation (and every insertion, spec §4.1) clears the redo
stack.  The engine-level effects of `insert_char`, `delete_char` and
`set_cursor` are the src/text_engine.py operations embedded above. -/
def applyEdit : EditOp → EditorState → Except String EditorState
  | .insertChar c, st =>
    let us := if c.isWhitespace || st.undo_stack.isEmpty
              then pushUndo st.engine st.undo_stack else st.undo_stack
    match insert_char c st.engine with
    | .error msg => .error msg
    | .ok e => .ok { engine := e, undo_stack := us, redo_stack := [] }
  | .deleteChar, st =>
    if st.engine.gap_start = 0 then .ok st
    else
      match delete_char st.engine with
      | .error msg => .error msg
      | .ok e => .ok { engine := e, undo_stack := pushUndo st.engine st.undo_stack
                       redo_stack := [] }
  | .deleteFrom count, st =>
    if count ≤ 0 then .ok st
    else .ok { engine := delete_from_cursor count st.engine
               undo_stack := pushUndo st.engine st.undo_stack
               redo_stack := [] }
  | .setCursor n, st =>
    match set_cursor n st.engine with
    | .error msg => .error msg
    | .ok e => .ok { engine := e, undo_stack := st.undo_stack
                     redo_stack := st.redo_stack }

/-- A sequence of mutating operations applied right-to-left through the
editor state, stopping at the first raised error. -/
def applyEdits : List EditOp → EditorState → Except String EditorState
  | [], st => .ok st
  | m :: ms, st =>
    match applyEdit m st with
    | .error msg => .error msg
    | .ok st' => applyEdits ms st'

/-- True when every operation of the list succeeds and none of them takes an
undo snapshot along the run from the given state. -/
def noSnapAlong : List EditOp → EditorState → Bool
  | [], _ => true
  | m :: ms, st =>
    !takesSnapshot m st &&
      (match applyEdit m st with
       | .ok st' => noSnapAlong ms st'
       | .error _ => false)

/-- The user-visible pair of a state: the string `get_text()` returns and
the cursor position `cursor_pos`. -/
def textCursor (e : TextEngine) : String × Nat :=
  (get_text e, cursor_pos e)

theorem listGetE_ok {α : Type} (l : List α) (i : Nat) (h : i < l.length) :
    listGetE l i = .ok l[i] := by
  simp [listGetE, h]

theorem listSetE_ok {α : Type} (l : List α) (i : Nat) (a : α) (h : i < l.length) :
    listSetE l i a = .ok (l.set i a) := by
  simp [listSetE, h]

theorem exceptBind_ok {α β : Type} (a : α) (f : α → Except String β) :
    ((Except.ok a : Except String α) >>= f) = f a := rfl

theorem take_set_of_le {α : Type} (l : List α) (i n : Nat) (a : α) (h : n ≤ i) :
    (l.set i a).take n = l.take n := by
  refine List.ext_getElem? fun j => ?_
  by_cases hj : j < n
  · simp only [List.getElem?_take, if_pos hj, List.getElem?_set]
    rw [if_neg (by omega)]
  · simp only [List.getElem?_take, if_neg hj]

theorem length_filterMap_id {α : Type} (l : List (Option α)) (h : ∀ x ∈ l, x ≠ none) :
    (l.filterMap id).length = l.length := by
  induction l with
  | nil => rfl
  | cons a t ih =>
    cases a with
    | none => exact absurd rfl (h none (List.mem_cons_self _ _))
    | some b =>
      simp only [List.filterMap_cons, id, List.length_cons]
      rw [ih fun x hx => h x (List.mem_cons_of_mem _ hx)]

namespace TextEngine

/-- Running the first `while` loop of `set_cursor` for `steps ≤ gap_start`
iterations from a state with a well-formed gap never raises, shifts both gap
bounds down by `steps`, keeps the capacity, and — when the gap is nonempty —
keeps the logical character sequence. -/
theorem moveGapLeft_spec :
    ∀ (steps : Nat) (e : TextEngine),
      steps ≤ e.gap_start → e.gap_start ≤ e.gap_end → e.gap_end ≤ e.buffer.length →
      ∃ e', moveGapLeft steps e = .ok e' ∧
        e'.buffer.length = e.buffer.length ∧
        e'.gap_start = e.gap_start - steps ∧
        e'.gap_end = e.gap_end - steps ∧
        (e.gap_start < e.gap_end → logicalText e' = logicalText e) := by
  intro steps
  induction steps with
  | zero =>
    intro e _ _ _
    exact ⟨e, rfl, rfl, by omega, by omega, fun _ => rfl⟩
  | succ n ih =>
    intro e hs hg hl
    have hgs1 : e.gap_start - 1 < e.buffer.length := by omega
    have hge1 : e.gap_end - 1 < e.buffer.length := by omega
    have hb1 : e.gap_start - 1 <
        ((e.buffer.set (e.gap_end - 1) e.buffer[e.gap_start - 1]).length) := by
      simpa using hgs1
    simp only [moveGapLeft, listGetE_ok _ _ hgs1, listSetE_ok _ _ _ hge1,
      listSetE_ok _ _ _ hb1, exceptBind_ok]
    obtain ⟨e', h1, h2, h3, h4, h5⟩ :=
      ih { buffer := (e.buffer.set (e.gap_end - 1) e.buffer[e.gap_start - 1]).set
                       (e.gap_start - 1) none
           gap_start := e.gap_start - 1
           gap_end := e.gap_end - 1 }
        (show n ≤ e.gap_start - 1 by omega)
        (show e.gap_start - 1 ≤ e.gap_end - 1 by omega)
        (show e.gap_end - 1 ≤ _ by simp only [List.length_set]; omega)
    have h2' : e'.buffer.length
        = ((e.buffer.set (e.gap_end - 1) e.buffer[e.gap_start - 1]).set
            (e.gap_start - 1) none).length := h2
    rw [List.length_set, List.length_set] at h2'
    have h3' : e'.gap_start = e.gap_start - 1 - n := h3
    have h4' : e'.gap_end = e.gap_end - 1 - n := h4
    refine ⟨e', h1, h2', ?_, ?_, ?_⟩
    · rw [h3']; omega
    · rw [h4']; omega
    · intro hlt
      rw [h5 (show e.gap_start - 1 < e.gap_end - 1 by omega)]
      unfold logicalText
      have htake :
          (((e.buffer.set (e.gap_end - 1) e.buffer[e.gap_start - 1]).set
              (e.gap_start - 1) none).take (e.gap_start - 1))
            = e.buffer.take (e.gap_start - 1) := by
        rw [take_set_of_le _ _ _ _ (le_refl _), take_set_of_le _ _ _ _ (by omega)]
      have hdrop :
          (((e.buffer.set (e.gap_end - 1) e.buffer[e.gap_start - 1]).set
              (e.gap_start - 1) none).drop (e.gap_end - 1))
            = e.buffer[e.gap_start - 1] :: e.buffer.drop e.gap_end := by
        rw [List.drop_set, if_pos (by omega), List.drop_set, if_neg (by omega)]
        rw [Nat.sub_self, List.drop_eq_getElem_cons hge1]
        have : e.gap_end - 1 + 1 = e.gap_end := by omega
        rw [this, List.set_cons_zero]
      rw [htake, hdrop]
      have : e.buffer.take e.gap_start
          = e.buffer.take (e.gap_start - 1) ++ [e.buffer[e.gap_start - 1]] := by
        have h' := List.take_concat_get' e.buffer (e.gap_start - 1) hgs1
        have hg1 : e.gap_start - 1 + 1 = e.gap_start := by omega
        rw [hg1] at h'
        exact h'.symm
      rw [this, List.append_assoc, List.singleton_append]

/-- Running the second `while` loop of `set_cursor` for `steps` iterations,
`gap_end + steps` staying within capacity, never raises, shifts both gap
bounds up by `steps`, keeps the capacity, and — when the gap is nonempty —
keeps the logical character sequence. -/
theorem moveGapRight_spec :
    ∀ (steps : Nat) (e : TextEngine),
      e.gap_start ≤ e.gap_end → e.gap_end + steps ≤ e.buffer.length →
      ∃ e', moveGapRight steps e = .ok e' ∧
        e'.buffer.length = e.buffer.length ∧
        e'.gap_start = e.gap_start + steps ∧
        e'.gap_end = e.gap_end + steps ∧
        (e.gap_start < e.gap_end → logicalText e' = logicalText e) := by
  intro steps
  induction steps with
  | zero =>
    intro e _ _
    exact ⟨e, rfl, rfl, rfl, rfl, fun _ => rfl⟩
  | succ n ih =>
    intro e hg hl
    have hge : e.gap_end < e.buffer.length := by omega
    have hgs : e.gap_start < e.buffer.length := by omega
    have hb1 : e.gap_end < ((e.buffer.set e.gap_start e.buffer[e.gap_end]).length) := by
      simpa using hge
    simp only [moveGapRight, listGetE_ok _ _ hge, listSetE_ok _ _ _ hgs,
      listSetE_ok _ _ _ hb1, exceptBind_ok]
    obtain ⟨e', h1, h2, h3, h4, h5⟩ :=
      ih { buffer := (e.buffer.set e.gap_start e.buffer[e.gap_end]).set e.gap_end none
           gap_start := e.gap_start + 1
           gap_end := e.gap_end + 1 }
        (show e.gap_start + 1 ≤ e.gap_end + 1 by omega)
        (show e.gap_end + 1 + n ≤ _ by simp only [List.length_set]; omega)
    have h2' : e'.buffer.length
        = ((e.buffer.set e.gap_start e.buffer[e.gap_end]).set e.gap_end none).length := h2
    rw [List.length_set, List.length_set] at h2'
    have h3' : e'.gap_start = e.gap_start + 1 + n := h3
    have h4' : e'.gap_end = e.gap_end + 1 + n := h4
    refine ⟨e', h1, h2', ?_, ?_, ?_⟩
    · rw [h3']; omega
    · rw [h4']; omega
    · intro hlt
      rw [h5 (show e.gap_start + 1 < e.gap_end + 1 by omega)]
      unfold logicalText
      have hgsb1 : e.gap_start < ((e.buffer.set e.gap_start e.buffer[e.gap_end]).length) := by
        simpa using hgs
      have htake :
          (((e.buffer.set e.gap_start e.buffer[e.gap_end]).set e.gap_end none).take
              (e.gap_start + 1))
            = e.buffer.take e.gap_start ++ [e.buffer[e.gap_end]] := by
        rw [take_set_of_le _ _ _ _ (by omega)]
        have h' := List.take_concat_get' (e.buffer.set e.gap_start e.buffer[e.gap_end])
          e.gap_start hgsb1
        rw [← h', take_set_of_le _ _ _ _ (le_refl _), List.getElem_set, if_pos rfl]
      have hdrop :
          (((e.buffer.set e.gap_start e.buffer[e.gap_end]).set e.gap_end none).drop
              (e.gap_end + 1))
            = e.buffer.drop (e.gap_end + 1) := by
        rw [List.drop_set, if_pos (by omega), List.drop_set, if_pos (by omega)]
      rw [htake, hdrop, List.append_assoc, List.singleton_append,
        ← List.drop_eq_getElem_cons hge]

/-- Full specification of `set_cursor` on states satisfying the index
invariant: it never raises, the cursor lands on the clamped position, the
capacity and the gap size are preserved, and — when the gap is nonempty —
so is the logical character sequence. -/
theorem set_cursor_spec (n : Int) (e : TextEngine) (h : Invariant e) :
    ∃ e', set_cursor n e = .ok e' ∧
      e'.buffer.length = e.buffer.length ∧
      e'.gap_start = clampPos n e ∧
      e'.gap_end - e'.gap_start = e.gap_end - e.gap_start ∧
      Invariant e' ∧
      (e.gap_start < e.gap_end → logicalText e' = logicalText e) := by
  obtain ⟨h1, h2⟩ := h
  have hT : current_text_length e
      = (e.buffer.length : Int) - ((e.gap_end : Int) - (e.gap_start : Int)) := rfl
  have hp : clampPos n e + e.gap_end ≤ e.buffer.length + e.gap_start := by
    unfold clampPos
    omega
  unfold set_cursor
  by_cases hdir : clampPos n e < e.gap_start
  · rw [if_pos hdir]
    obtain ⟨e', h1', h2', h3', h4', h5'⟩ :=
      moveGapLeft_spec (e.gap_start - clampPos n e) e (by omega) h1 h2
    refine ⟨e', h1', h2', by omega, by omega, ?_, h5'⟩
    constructor
    · omega
    · rw [h2']; omega
  · rw [if_neg hdir]
    obtain ⟨e', h1', h2', h3', h4', h5'⟩ :=
      moveGapRight_spec (clampPos n e - e.gap_start) e h1 (by omega)
    refine ⟨e', h1', h2', by omega, by omega, ?_, h5'⟩
    constructor
    · omega
    · rw [h2']; omega

/-- Clamping maps every negative request to the same position as a request
of 0 (on every state, even invariant-violating ones). -/
theorem clampPos_of_neg (n : Int) (e : TextEngine) (h : n < 0) :
    clampPos n e = clampPos 0 e := by
  unfold clampPos
  omega

/-- Clamping maps every request above the computed text length to the same
position as a request of exactly the text length. -/
theorem clampPos_of_gt (n : Int) (e : TextEngine) (h : current_text_length e < n) :
    clampPos n e = clampPos (current_text_length e) e := by
  unfold clampPos
  omega

/-- `set_cursor` depends on its argument only through the clamped
position. -/
theorem set_cursor_congr (n m : Int) (e : TextEngine) (h : clampPos n e = clampPos m e) :
    set_cursor n e = set_cursor m e := by
  unfold set_cursor
  rw [h]

/-- Under the index invariant, `insert_char` never raises. -/
theorem insert_char_isOk (c : Char) (e : TextEngine) (h : Invariant e) :
    (insert_char c e).isOk = true := by
  unfold insert_char
  by_cases hg : e.gap_start = e.gap_end
  · rw [if_pos hg]; rfl
  · have : e.gap_start < e.buffer.length := by
      obtain ⟨a, b⟩ := h; omega
    rw [if_neg hg, listSetE_ok _ _ _ this]
    rfl

/-- Under the index invariant, `delete_char` never raises. -/
theorem delete_char_isOk (e : TextEngine) (h : Invariant e) :
    (delete_char e).isOk = true := by
  unfold delete_char
  by_cases hg : e.gap_start = 0
  · rw [if_pos hg]; rfl
  · have : e.gap_start - 1 < e.buffer.length := by
      obtain ⟨a, b⟩ := h; omega
    rw [if_neg hg, listSetE_ok _ _ _ this]
    rfl

end TextEngine

/-- An operation that takes no snapshot and succeeds leaves the undo stack
untouched. -/
theorem applyEdit_noSnap (m : EditOp) (st st' : EditorState)
    (hs : takesSnapshot m st = false) (ha : applyEdit m st = .ok st') :
    st'.undo_stack = st.undo_stack := by
  cases m with
  | insertChar c =>
    simp only [takesSnapshot] at hs
    simp only [applyEdit] at ha
    split at ha
    · exact absurd ha (by simp)
    · obtain rfl := (Except.ok.injEq _ _).mp ha
      show (if (c.isWhitespace || st.undo_stack.isEmpty) = true then
              pushUndo st.engine st.undo_stack else st.undo_stack) = st.undo_stack
      rw [hs]
      simp
  | deleteChar =>
    simp only [takesSnapshot] at hs
    have hg : st.engine.gap_start = 0 := by simpa using hs
    simp only [applyEdit] at ha
    rw [if_pos hg] at ha
    obtain rfl := (Except.ok.injEq _ _).mp ha
    rfl
  | deleteFrom count =>
    simp only [takesSnapshot] at hs
    have hc : count ≤ 0 := by simpa using hs
    simp only [applyEdit] at ha
    rw [if_pos hc] at ha
    obtain rfl := (Except.ok.injEq _ _).mp ha
    rfl
  | setCursor n =>
    simp only [applyEdit] at ha
    split at ha
    · exact absurd ha (by simp)
    · obtain rfl := (Except.ok.injEq _ _).mp ha
      rfl

/-- An operation that takes a snapshot and succeeds leaves the live state of
the moment just before it on top of the undo stack. -/
theorem applyEdit_snap (m : EditOp) (st st' : EditorState)
    (hs : takesSnapshot m st = true) (ha : applyEdit m st = .ok st') :
    st'.undo_stack = st.engine :: List.take 49 st.undo_stack := by
  have hpush : pushUndo st.engine st.undo_stack
      = st.engine :: List.take 49 st.undo_stack := List.take_succ_cons
  cases m with
  | insertChar c =>
    simp only [takesSnapshot] at hs
    simp only [applyEdit] at ha
    split at ha
    · exact absurd ha (by simp)
    · obtain rfl := (Except.ok.injEq _ _).mp ha
      show (if (c.isWhitespace || st.undo_stack.isEmpty) = true then
              pushUndo st.engine st.undo_stack else st.undo_stack)
          = st.engine :: List.take 49 st.undo_stack
      rw [hs, if_pos rfl]
      exact hpush
  | deleteChar =>
    simp only [takesSnapshot] at hs
    have hg : ¬ st.engine.gap_start = 0 := by simpa using hs
    simp only [applyEdit] at ha
    rw [if_neg hg] at ha
    split at ha
    · exact absurd ha (by simp)
    · obtain rfl := (Except.ok.injEq _ _).mp ha
      exact hpush
  | deleteFrom count =>
    simp only [takesSnapshot] at hs
    have hc : ¬ count ≤ 0 := by simpa using hs
    simp only [applyEdit] at ha
    rw [if_neg hc] at ha
    obtain rfl := (Except.ok.injEq _ _).mp ha
    exact hpush
  | setCursor n =>
    exact absurd hs (by simp [takesSnapshot])

/-- A successful run of operations none of which snapshots leaves the undo
stack untouched. -/
theorem applyEdits_noSnapAlong :
    ∀ (ms : List EditOp) (st st' : EditorState),
      noSnapAlong ms st = true → applyEdits ms st = .ok st' →
      st'.undo_stack = st.undo_stack := by
  intro ms
  induction ms with
  | nil =>
    intro st st' _ ha
    obtain rfl := (Except.ok.injEq _ _).mp ha
    rfl
  | cons m ms ih =>
    intro st st' hn ha
    simp only [noSnapAlong] at hn
    rw [Bool.and_eq_true, Bool.not_eq_true'] at hn
    obtain ⟨hs, hrest⟩ := hn
    simp only [applyEdits] at ha
    cases hi : applyEdit m st with
    | error msg =>
      simp only [hi] at hrest
      exact absurd hrest (by simp)
    | ok stm =>
      simp only [hi] at ha hrest
      rw [ih stm st' hrest ha, applyEdit_noSnap m st stm hs hi]

/-- C1: refuted on the code — after `load_text("ab")`, `get_text()` returns
`"ab|"` (the text with the spliced-in cursor marker), not `"ab"`, so the
round trip `load_text(s); get_text() == s` fails; the cursor conjunct does
hold: `gap_start` equals `length("ab") = 2`. -/
theorem c1_round_trip_fails :
    get_text (load_text "ab") = "ab|" ∧
    get_text (load_text "ab") ≠ "ab" ∧
    cursor_pos (load_text "ab") = 2 :=
  ⟨rfl, by decide, rfl⟩

/-- C2: refuted on the code — running the repository's own test sequence
(insert `'H'`, `'i'`, move the cursor to 1, insert `'e'`) makes `get_text()`
return `"He|i"`: the gap is excluded, but the extra `"|"` marker character
is included, so the result is not the marker-free logical text `"Hei"` that
src/test_engine.py expects. -/
theorem c2_get_text_has_marker :
    (insert_char 'H' (init 10) >>= insert_char 'i' >>= set_cursor 1 >>= insert_char 'e')
      = .ok { buffer := [some 'H', some 'e', none, none, none, none, none, none, none,
                         some 'i'], gap_start := 2, gap_end := 9 } ∧
    get_text { buffer := [some 'H', some 'e', none, none, none, none, none, none, none,
                          some 'i'], gap_start := 2, gap_end := 9 } = "He|i" ∧
    ("He|i" : String) ≠ "Hei" :=
  ⟨rfl, rfl, by decide⟩

/-- C3: refuted on the code — with a one-slot engine, inserting `'a'`
exhausts the gap; the next `insert_char('b')` does not double the capacity:
it returns the state unchanged (the source prints "Buffer Full! (Resize not
implemented yet)"), the capacity stays 1 and `'b'` is dropped from the
text. -/
theorem c3_full_buffer_drops_char :
    insert_char 'a' (init 1) = .ok { buffer := [some 'a'], gap_start := 1, gap_end := 1 } ∧
    insert_char 'b' { buffer := [some 'a'], gap_start := 1, gap_end := 1 }
      = .ok { buffer := [some 'a'], gap_start := 1, gap_end := 1 } ∧
    ({ buffer := [some 'a'], gap_start := 1, gap_end := 1 } : TextEngine).buffer.length = 1 ∧
    get_text { buffer := [some 'a'], gap_start := 1, gap_end := 1 } = "a|" :=
  ⟨rfl, rfl, rfl, rfl⟩

/-- C4: undo is a no-op on an empty undo stack; on a nonempty stack it
pushes the current state onto the redo stack, pops the top undo entry and
restores it; after an undo-eligible (snapshotting) mutation followed by any
successful run of non-snapshotting operations, `undo` restores the exact
`(text, cursor)` pair of the state just before that mutation; and `redo`
right after `undo` restores the full state present just before the undo
(for undo stacks within the 50-entry bound). -/
theorem c4_undo_redo :
    (∀ st : EditorState, st.undo_stack = [] → undo st = st) ∧
    (∀ (st : EditorState) (s : TextEngine) (rest : List TextEngine),
        st.undo_stack = s :: rest →
        undo st = { engine := s, undo_stack := rest,
                    redo_stack := st.engine :: st.redo_stack }) ∧
    (∀ (st st1 st2 : EditorState) (m : EditOp) (post : List EditOp),
        takesSnapshot m st = true → applyEdit m st = .ok st1 →
        noSnapAlong post st1 = true → applyEdits post st1 = .ok st2 →
        textCursor (undo st2).engine = textCursor st.engine) ∧
    (∀ st : EditorState, st.undo_stack ≠ [] → st.undo_stack.length ≤ 50 →
        redo (undo st) = st) := by
  refine ⟨?_, ?_, ?_, ?_⟩
  · intro st h
    unfold undo
    rw [h]
  · intro st s rest h
    unfold undo
    rw [h]
  · intro st st1 st2 m post hsnap happ hns hedits
    have h1 : st1.undo_stack = st.engine :: List.take 49 st.undo_stack :=
      applyEdit_snap m st st1 hsnap happ
    have h2 : st2.undo_stack = st1.undo_stack :=
      applyEdits_noSnapAlong post st1 st2 hns hedits
    unfold undo
    rw [h2.trans h1]
  · intro st hne hlen
    cases hu : st.undo_stack with
    | nil => exact absurd hu hne
    | cons s rest =>
      have hstep : undo st = { engine := s, undo_stack := rest,
                               redo_stack := st.engine :: st.redo_stack } := by
        unfold undo
        rw [hu]
      rw [hstep]
      show ({ engine := st.engine, undo_stack := pushUndo s rest,
              redo_stack := st.redo_stack } : EditorState) = st
      have hsr : (s :: rest).length ≤ 50 := hu ▸ hlen
      have hpush : pushUndo s rest = s :: rest := by
        unfold pushUndo
        exact List.take_of_length_le hsr
      rw [hpush, ← hu]

/-- C4 witness: concrete instances of the four conjuncts. -/
theorem c4_undo_redo_witness :
    undo ({ engine := { buffer := [none], gap_start := 0, gap_end := 1 },
            undo_stack := [], redo_stack := [] } : EditorState)
      = { engine := { buffer := [none], gap_start := 0, gap_end := 1 },
          undo_stack := [], redo_stack := [] } ∧
    undo ({ engine := { buffer := [some 'a'], gap_start := 1, gap_end := 1 },
            undo_stack := [{ buffer := [none], gap_start := 0, gap_end := 1 }],
            redo_stack := [{ buffer := [some 'b'], gap_start := 1, gap_end := 1 }] }
          : EditorState)
      = { engine := { buffer := [none], gap_start := 0, gap_end := 1 },
          undo_stack := [],
          redo_stack := [{ buffer := [some 'a'], gap_start := 1, gap_end := 1 },
                         { buffer := [some 'b'], gap_start := 1, gap_end := 1 }] } ∧
    textCursor (undo
        ({ engine := { buffer := [some 'x', some 'y'], gap_start := 2, gap_end := 2 },
           undo_stack := [{ buffer := [none, none], gap_start := 0, gap_end := 2 }],
           redo_stack := [] } : EditorState)).engine
      = textCursor
        ({ engine := { buffer := [none, none], gap_start := 0, gap_end := 2 },
           undo_stack := [], redo_stack := [] } : EditorState).engine ∧
    redo (undo
        ({ engine := { buffer := [some 'a'], gap_start := 1, gap_end := 1 },
           undo_stack := [{ buffer := [none], gap_start := 0, gap_end := 1 }],
           redo_stack := [{ buffer := [some 'b'], gap_start := 1, gap_end := 1 }] }
          : EditorState))
      = { engine := { buffer := [some 'a'], gap_start := 1, gap_end := 1 },
          undo_stack := [{ buffer := [none], gap_start := 0, gap_end := 1 }],
          redo_stack := [{ buffer := [some 'b'], gap_start := 1, gap_end := 1 }] } :=
  ⟨c4_undo_redo.1 _ rfl,
   c4_undo_redo.2.1 _ _ _ rfl,
   c4_undo_redo.2.2.1
     { engine := { buffer := [none, none], gap_start := 0, gap_end := 2 },
       undo_stack := [], redo_stack := [] }
     { engine := { buffer := [some 'x', none], gap_start := 1, gap_end := 2 },
       undo_stack := [{ buffer := [none, none], gap_start := 0, gap_end := 2 }],
       redo_stack := [] }
     { engine := { buffer := [some 'x', some 'y'], gap_start := 2, gap_end := 2 },
       undo_stack := [{ buffer := [none, none], gap_start := 0, gap_end := 2 }],
       redo_stack := [] }
     (.insertChar 'x') [.insertChar 'y'] rfl rfl rfl rfl,
   c4_undo_redo.2.2.2 _ (by decide) (by decide)⟩

/-- C5: refuted on the code — the index invariant does hold on the fresh
state, but the string `get_text()` returns has length
`capacity − (gap_end − gap_start) + 1`, not `capacity − (gap_end −
gap_start)`: already on a fresh engine of capacity 100 the returned string
is `"|"` of length 1 while the formula gives 0. -/
theorem c5_length_off_by_one :
    Invariant (init 100) ∧
    (get_text (init 100)).length = 1 ∧
    (init 100).buffer.length - ((init 100).gap_end - (init 100).gap_start) = 0 :=
  ⟨by decide, rfl, rfl⟩

/-- C6: `set_cursor` clamps: a negative request yields exactly the state a
request of 0 yields, and a request above the current text length yields
exactly the state a request of the text length yields — on every state,
with no failure. -/
theorem c6_set_cursor_clamps (e : TextEngine) (n : Int) :
    (n < 0 → set_cursor n e = set_cursor 0 e) ∧
    (current_text_length e < n →
        set_cursor n e = set_cursor (current_text_length e) e) :=
  ⟨fun h => set_cursor_congr _ _ _ (clampPos_of_neg n e h),
   fun h => set_cursor_congr _ _ _ (clampPos_of_gt n e h)⟩

/-- C6 witness: the spec's 3-character example, with requests −5 and 1000. -/
theorem c6_set_cursor_clamps_witness :
    set_cursor (-5) (load_text "abc") = set_cursor 0 (load_text "abc") ∧
    set_cursor 1000 (load_text "abc")
      = set_cursor (current_text_length (load_text "abc")) (load_text "abc") ∧
    current_text_length (load_text "abc") = 3 :=
  ⟨(c6_set_cursor_clamps (load_text "abc") (-5)).1 (by decide),
   (c6_set_cursor_clamps (load_text "abc") 1000).2 (by decide),
   rfl⟩

/-- C7: user-facing misuse never raises — backward delete at cursor 0 is a
no-op; under the index invariant `set_cursor` (any request, however far out
of range), `insert_char` and `delete_char` never raise; the modelled
`delete_from_cursor` is a no-op for `count ≤ 0` and clamps every count to
the slots available after the gap; and undo/redo on empty history are
no-ops. -/
theorem c7_no_raise_on_misuse :
    (∀ e : TextEngine, e.gap_start = 0 → delete_char e = .ok e) ∧
    (∀ (e : TextEngine) (n : Int), Invariant e → (set_cursor n e).isOk = true) ∧
    (∀ (e : TextEngine) (c : Char), Invariant e → (insert_char c e).isOk = true) ∧
    (∀ e : TextEngine, Invariant e → (delete_char e).isOk = true) ∧
    (∀ (e : TextEngine) (n : Int), n ≤ 0 → delete_from_cursor n e = e) ∧
    (∀ (e : TextEngine) (n : Int),
        delete_from_cursor n e
          = delete_from_cursor (min n ((e.buffer.length - e.gap_end : Nat) : Int)) e) ∧
    (∀ st : EditorState, st.undo_stack = [] → undo st = st) ∧
    (∀ st : EditorState, st.redo_stack = [] → redo st = st) := by
  refine ⟨?_, ?_, ?_, ?_, ?_, ?_, ?_, ?_⟩
  · intro e h
    unfold delete_char
    rw [if_pos h]
  · intro e n h
    obtain ⟨e', he, _⟩ := set_cursor_spec n e h
    rw [he]
    rfl
  · intro e c h
    exact insert_char_isOk c e h
  · intro e h
    exact delete_char_isOk e h
  · intro e n h
    simp only [delete_from_cursor]
    rw [if_pos h]
  · intro e n
    simp only [delete_from_cursor]
    by_cases h : n ≤ 0
    · rw [if_pos h, if_pos (by omega : min n ((e.buffer.length - e.gap_end : Nat) : Int) ≤ 0)]
    · rw [if_neg h]
      by_cases h2 : min n ((e.buffer.length - e.gap_end : Nat) : Int) ≤ 0
      · rw [if_pos h2]
        have havail : e.buffer.length - e.gap_end = 0 := by omega
        rw [havail]
        simp [clearSlots]
      · rw [if_neg h2]
        have hk : min (Int.toNat n) (e.buffer.length - e.gap_end)
            = min (Int.toNat (min n ((e.buffer.length - e.gap_end : Nat) : Int)))
                (e.buffer.length - e.gap_end) := by omega
        rw [hk]
  · intro st h
    unfold undo
    rw [h]
  · intro st h
    unfold redo
    rw [h]

/-- C7 witness: concrete instances of every conjunct. -/
theorem c7_no_raise_on_misuse_witness :
    delete_char ({ buffer := [some 'a'], gap_start := 0, gap_end := 1 } : TextEngine)
      = .ok { buffer := [some 'a'], gap_start := 0, gap_end := 1 } ∧
    (set_cursor 1000 { buffer := [some 'a', none], gap_start := 1, gap_end := 2 }).isOk
      = true ∧
    (insert_char 'q' { buffer := [some 'a', none], gap_start := 1, gap_end := 2 }).isOk
      = true ∧
    (delete_char { buffer := [some 'a', none], gap_start := 1, gap_end := 2 }).isOk
      = true ∧
    delete_from_cursor (-3) { buffer := [some 'a', none], gap_start := 1, gap_end := 2 }
      = { buffer := [some 'a', none], gap_start := 1, gap_end := 2 } ∧
    delete_from_cursor 99 { buffer := [some 'a', none], gap_start := 1, gap_end := 2 }
      = delete_from_cursor
          (min 99 ((({ buffer := [some 'a', none], gap_start := 1, gap_end := 2 }
              : TextEngine).buffer.length
            - ({ buffer := [some 'a', none], gap_start := 1, gap_end := 2 }
              : TextEngine).gap_end : Nat) : Int))
          { buffer := [some 'a', none], gap_start := 1, gap_end := 2 } ∧
    undo ({ engine := { buffer := [none], gap_start := 0, gap_end := 1 },
            undo_stack := [],
            redo_stack := [{ buffer := [some 'b'], gap_start := 1, gap_end := 1 }] }
          : EditorState)
      = { engine := { buffer := [none], gap_start := 0, gap_end := 1 },
          undo_stack := [],
          redo_stack := [{ buffer := [some 'b'], gap_start := 1, gap_end := 1 }] } ∧
    redo ({ engine := { buffer := [none], gap_start := 0, gap_end := 1 },
            undo_stack := [{ buffer := [some 'b'], gap_start := 1, gap_end := 1 }],
            redo_stack := [] } : EditorState)
      = { engine := { buffer := [none], gap_start := 0, gap_end := 1 },
          undo_stack := [{ buffer := [some 'b'], gap_start := 1, gap_end := 1 }],
          redo_stack := [] } :=
  ⟨c7_no_raise_on_misuse.1 _ rfl,
   c7_no_raise_on_misuse.2.1 _ 1000 (by decide),
   c7_no_raise_on_misuse.2.2.1 _ 'q' (by decide),
   c7_no_raise_on_misuse.2.2.2.1 _ (by decide),
   c7_no_raise_on_misuse.2.2.2.2.1 _ (-3) (by decide),
   c7_no_raise_on_misuse.2.2.2.2.2.1 _ 99,
   c7_no_raise_on_misuse.2.2.2.2.2.2.1 _ rfl,
   c7_no_raise_on_misuse.2.2.2.2.2.2.2 _ rfl⟩

/-- C8 counterexample: a state satisfying the index invariant whose gap is
empty (`gap_start = gap_end`) on which `set_cursor` destroys the logical
character sequence — the claim as stated (over every invariant-satisfying
state) is false. -/
theorem c8_zero_gap_cex :
    Invariant ({ buffer := [some 'a', some 'b'], gap_start := 2, gap_end := 2 }
      : TextEngine) ∧
    set_cursor 0 { buffer := [some 'a', some 'b'], gap_start := 2, gap_end := 2 }
      = .ok { buffer := [none, none], gap_start := 0, gap_end := 0 } ∧
    logicalText { buffer := [none, none], gap_start := 0, gap_end := 0 }
      ≠ logicalText { buffer := [some 'a', some 'b'], gap_start := 2, gap_end := 2 } :=
  ⟨by decide, rfl, by decide⟩

/-- C8 amended: on every state satisfying the index invariant, `set_cursor`
never raises and preserves the capacity and the gap size; when the gap is
additionally nonempty (`gap_start < gap_end`), it also preserves the
logical character sequence. -/
theorem c8_set_cursor_frame (e : TextEngine) (n : Int) (h : Invariant e) :
    (set_cursor n e).isOk = true ∧
    (stateOf (set_cursor n e)).buffer.length = e.buffer.length ∧
    (stateOf (set_cursor n e)).gap_end - (stateOf (set_cursor n e)).gap_start
      = e.gap_end - e.gap_start ∧
    (e.gap_start < e.gap_end →
        logicalText (stateOf (set_cursor n e)) = logicalText e) := by
  obtain ⟨e', he, hlen, hgs, hgap, hinv, hlog⟩ := set_cursor_spec n e h
  rw [he]
  exact ⟨rfl, hlen, hgap, hlog⟩

/-- C8 witness: the frame conditions at a concrete nonempty-gap state. -/
theorem c8_set_cursor_frame_witness :
    (set_cursor 0 { buffer := [some 'a', none, some 'b'], gap_start := 1, gap_end := 2 }).isOk
      = true ∧
    (stateOf (set_cursor 0 { buffer := [some 'a', none, some 'b'], gap_start := 1, gap_end := 2 })).buffer.length
      = ({ buffer := [some 'a', none, some 'b'], gap_start := 1, gap_end := 2 }
          : TextEngine).buffer.length ∧
    logicalText (stateOf (set_cursor 0 { buffer := [some 'a', none, some 'b'], gap_start := 1, gap_end := 2 }))
      = logicalText { buffer := [some 'a', none, some 'b'], gap_start := 1, gap_end := 2 } :=
  ⟨(c8_set_cursor_frame { buffer := [some 'a', none, some 'b'], gap_start := 1, gap_end := 2 }
      0 (by decide)).1,
   (c8_set_cursor_frame { buffer := [some 'a', none, some 'b'], gap_start := 1, gap_end := 2 }
      0 (by decide)).2.1,
   (c8_set_cursor_frame { buffer := [some 'a', none, some 'b'], gap_start := 1, gap_end := 2 }
      0 (by decide)).2.2.2 (by decide)⟩

/-- C9: inserting into a state whose gap is exhausted
(`gap_start = gap_end`) returns the state completely unchanged — buffer,
`gap_start` and `gap_end` exactly as before, the character dropped (the
source only prints a diagnostic). -/
theorem c9_insert_full_noop (c : Char) (e : TextEngine) (h : e.gap_start = e.gap_end) :
    insert_char c e = .ok e := by
  unfold insert_char
  rw [if_pos h]

/-- C9 witness: a concrete full buffer. -/
theorem c9_insert_full_noop_witness :
    insert_char 'z' { buffer := [some 'a'], gap_start := 1, gap_end := 1 }
      = .ok { buffer := [some 'a'], gap_start := 1, gap_end := 1 } :=
  c9_insert_full_noop 'z' _ rfl

/-- C10 counterexample: a reachable state (capacity 2; insert `'a'`,`'b'`;
`set_cursor(1)`; `set_cursor(2)`) in which a slot before `gap_start` is
`None`, so the `"|"` of `get_text()` is not at offset `gap_start` and the
length of the result is not the logical text length plus one — the claim as
stated (over every reachable state) is false. -/
theorem c10_marker_offset_cex :
    Reachable ({ buffer := [some 'a', none], gap_start := 2, gap_end := 2 } : TextEngine) ∧
    (get_text { buffer := [some 'a', none], gap_start := 2, gap_end := 2 }).data[(2 : Nat)]?
      ≠ some '|' ∧
    (get_text { buffer := [some 'a', none], gap_start := 2, gap_end := 2 }).length
      ≠ 2 - (2 - 2) + 1 := by
  refine ⟨?_, by decide, by decide⟩
  have r0 : Reachable (init 2) := Reachable.init 2
  have r1 : Reachable ({ buffer := [some 'a', none], gap_start := 1, gap_end := 2 }
      : TextEngine) := Reachable.insert 'a' r0 rfl
  have r2 : Reachable ({ buffer := [some 'a', some 'b'], gap_start := 2, gap_end := 2 }
      : TextEngine) := Reachable.insert 'b' r1 rfl
  have r3 : Reachable ({ buffer := [some 'a', none], gap_start := 1, gap_end := 1 }
      : TextEngine) := Reachable.cursor 1 r2 rfl
  exact Reachable.cursor 2 r3 rfl

/-- C10 amended: on every state whose slots outside the gap are all
occupied (and whose indices satisfy the invariant), `get_text()` is the
occupied slots before the gap, then `"|"`, then the occupied slots after
the gap; the marker sits exactly at offset `gap_start` and the length
exceeds the logical text length `capacity − (gap_end − gap_start)` by
one. -/
theorem c10_get_text_shape (e : TextEngine) (h : StateOK e) :
    get_text e = String.mk ((e.buffer.take e.gap_start).filterMap id
      ++ '|' :: (e.buffer.drop e.gap_end).filterMap id) ∧
    (get_text e).data[e.gap_start]? = some '|' ∧
    (get_text e).length = e.buffer.length - (e.gap_end - e.gap_start) + 1 := by
  obtain ⟨⟨h1, h2⟩, hocc⟩ := h
  have hpre : ∀ x ∈ e.buffer.take e.gap_start, x ≠ none := fun x hx =>
    hocc x (List.mem_append_left _ hx)
  have hsuf : ∀ x ∈ e.buffer.drop e.gap_end, x ≠ none := fun x hx =>
    hocc x (List.mem_append_right _ hx)
  have hlpre : ((e.buffer.take e.gap_start).filterMap id).length = e.gap_start := by
    rw [length_filterMap_id _ hpre, List.length_take]
    omega
  have hlsuf : ((e.buffer.drop e.gap_end).filterMap id).length
      = e.buffer.length - e.gap_end := by
    rw [length_filterMap_id _ hsuf, List.length_drop]
  have hshape : get_text e = String.mk ((e.buffer.take e.gap_start).filterMap id
      ++ '|' :: (e.buffer.drop e.gap_end).filterMap id) := by
    simp only [get_text]
    rw [List.append_assoc, List.singleton_append]
  refine ⟨hshape, ?_, ?_⟩
  · rw [hshape]
    show ((e.buffer.take e.gap_start).filterMap id
        ++ '|' :: (e.buffer.drop e.gap_end).filterMap id)[e.gap_start]? = some '|'
    rw [List.getElem?_append_right (le_of_eq hlpre)]
    rw [show e.gap_start - ((e.buffer.take e.gap_start).filterMap id).length = 0 by
      rw [hlpre]; omega]
    rw [List.getElem?_cons_zero]
  · rw [hshape, String.length_mk, List.length_append, List.length_cons, hlpre, hlsuf]
    omega

/-- C10 witness: the shape facts at a concrete occupied state. -/
theorem c10_get_text_shape_witness :
    StateOK ({ buffer := [some 'H', none, some 'i'], gap_start := 1, gap_end := 2 }
      : TextEngine) ∧
    (get_text { buffer := [some 'H', none, some 'i'], gap_start := 1, gap_end := 2 }).data[(1 : Nat)]?
      = some '|' ∧
    (get_text { buffer := [some 'H', none, some 'i'], gap_start := 1, gap_end := 2 }).length
      = 3 - (2 - 1) + 1 :=
  ⟨by decide,
   (c10_get_text_shape { buffer := [some 'H', none, some 'i'], gap_start := 1, gap_end := 2 }
      (by decide)).2.1,
   (c10_get_text_shape { buffer := [some 'H', none, some 'i'], gap_start := 1, gap_end := 2 }
      (by decide)).2.2⟩
